import Mathlib

/-!
Verification of the logistic-management orchestration backend.

The definitions below are a shallow embedding of the Python sources:
  backend/managers/chatbot_manager.py   (routing state machine, sessions)
  backend/plugins/risk_plugin.py        (risk scoring)
  backend/plugins/logging_plugin.py     (truncation before persistence)
  backend/utils/database_utils.py       (retry discipline)

Modelling conventions: Python floats are modelled as exact rationals;
`f-string` two-decimal formatting is modelled as round-half-up on the exact
value; Python strings are Lean `String`s, with `str.lower` and substring
containment modelled character-wise (ASCII, which covers every keyword the
router inspects); external fallible calls (the Supabase client, the LLM
backend) are modelled as explicit function parameters returning `Except`.
-/

/-- Does the pattern (first argument) occur at the head of the second list? -/
def startsWithChars : List Char → List Char → Bool
  | [], _ => true
  | _ :: _, [] => false
  | p :: ps, c :: cs => p == c && startsWithChars ps cs

/-- Python-style substring containment (`pat in s`) on char lists. -/
def hasSubChars (pat : List Char) : List Char → Bool
  | [] => startsWithChars pat []
  | c :: cs => startsWithChars pat (c :: cs) || hasSubChars pat cs

/-- Model of Python `s.lower()` (character-wise ASCII lowering). -/
def lowerStr (s : String) : List Char := s.data.map Char.toLower

/-- Model of the Python expression `kw in msg.lower()` for a lowercase keyword `kw`. -/
def kwIn (kw : String) (msg : String) : Bool := hasSubChars kw.data (lowerStr msg)

/-- Round-half-up to two decimal places, modelling the `:.2f` format applied to
the exact rational value in `calculate_risk_percentage`. -/
def round2 (q : ℚ) : ℚ := (⌊q * 100 + 1 / 2⌋ : ℚ) / 100

/-- Embedding of `calculate_risk_percentage` (risk_plugin.py lines 6-16): fails
closed to 100 when `days_until_due <= 0`, otherwise `abs(days_variance /
days_until_due * 100)` formatted to two decimals. The `except` arm of the
Python source is unreachable here because the guard removes the only division
by a non-positive value. -/
def calculate_risk_percentage (days_variance days_until_due : ℤ) : ℚ :=
  if days_until_due ≤ 0 then 100
  else round2 |(days_variance : ℚ) / (days_until_due : ℚ) * 100|

/-- Record returned by `categorize_risk` (the JSON object of risk_plugin.py). -/
structure RiskCategory where
  risk_flag : String
  risk_points : ℤ
deriving DecidableEq, Repr

/-- Embedding of `categorize_risk` (risk_plugin.py lines 18-38). -/
def categorize_risk (risk_percentage : ℚ) : RiskCategory :=
  if risk_percentage < 5 then ⟨"Low Risk", 1⟩
  else if risk_percentage < 15 then ⟨"Medium Risk", 3⟩
  else ⟨"High Risk", 5⟩

/-- Cap on persisted free-text fields (logging_plugin.py, `max_text_length`). -/
def max_text_length : ℕ := 50000

/-- In-band marker appended when a field is cut (logging_plugin.py). -/
def truncation_marker : List Char := "... [TRUNCATED]".data

/-- Embedding of the per-field truncation in `log_agent_thinking`
(logging_plugin.py lines 49-56): `if field and len(field) > max_text_length:
field = field[:max_text_length] + "... [TRUNCATED]"`. -/
def truncate_text (s : List Char) : List Char :=
  if s ≠ [] ∧ max_text_length < s.length then s.take max_text_length ++ truncation_marker
  else s

/-- The three large text fields `log_agent_thinking` truncates before insert. -/
structure ThinkingLogFields where
  thought_content : List Char
  thinking_stage_output : List Char
  agent_output : List Char
deriving DecidableEq, Repr

/-- Field values actually persisted by `log_agent_thinking`: each of the three
large text fields goes through the same truncation. -/
def log_agent_thinking_persisted (f : ThinkingLogFields) : ThinkingLogFields :=
  ⟨truncate_text f.thought_content, truncate_text f.thinking_stage_output,
    truncate_text f.agent_output⟩

/-- Observable outcome of a retry loop: the returned/raised result, how many
attempts were made, and the sleep durations (ms) taken between attempts. -/
structure RetryOutcome (E A : Type) where
  result : Except E A
  attemptsMade : ℕ
  delaysMs : List ℕ

/-- Embedding of the `while retry_count < max_retries` loop shared verbatim by
`execute_rpc_with_retry` and `insert_table_with_retry` (database_utils.py).
`attempt k` is the k-th (0-based) try of the external call; a 500 ms sleep is
recorded before each re-entry; when the final try fails its error ("the last
error") is surfaced. `none` models the loop body never running (only possible
with `max_retries = 0`, where the Python function falls off the end). -/
def retryLoop {E A : Type} (attempt : ℕ → Except E A) :
    ℕ → ℕ → List ℕ → Option (RetryOutcome E A)
  | 0, _, _ => none
  | remaining + 1, made, delays =>
    match attempt made with
    | Except.ok a => some ⟨Except.ok a, made + 1, delays⟩
    | Except.error e =>
      if remaining = 0 then some ⟨Except.error e, made + 1, delays⟩
      else retryLoop attempt remaining (made + 1) (delays ++ [500])

/-- Embedding of `execute_rpc_with_retry` (database_utils.py lines 26-60),
with the RPC call abstracted as `attempt`. -/
def execute_rpc_with_retry {E A : Type} (attempt : ℕ → Except E A) (max_retries : ℕ) :
    Option (RetryOutcome E A) :=
  retryLoop attempt max_retries 0 []

/-- Embedding of `insert_table_with_retry` (database_utils.py lines 62-92),
with the insert call abstracted as `attempt`. -/
def insert_table_with_retry {E A : Type} (attempt : ℕ → Except E A) (max_retries : ℕ) :
    Option (RetryOutcome E A) :=
  retryLoop attempt max_retries 0 []

/-- Message roles: `HumanMessage` vs the `AIMessage`s produced by stages. -/
inductive Role
  | human
  | ai
deriving DecidableEq, Repr

/-- One transcript message (langchain `BaseMessage` restricted to the two roles
the routing code distinguishes). -/
structure Msg where
  role : Role
  content : String
deriving DecidableEq, Repr

/-- Nodes of the LangGraph state machine built in `_build_graph`. -/
inductive Node
  | router
  | scheduler
  | political
  | tariff
  | logistics
  | reporting
  | assistant
deriving DecidableEq, Repr

/-- Node name strings from agent_definitions.py (used as message tags). -/
def agentName : Node → String
  | Node.router => "router"
  | Node.scheduler => "SCHEDULER_AGENT"
  | Node.political => "POLITICAL_RISK_AGENT"
  | Node.tariff => "TARIFF_RISK_AGENT"
  | Node.logistics => "LOGISTICS_RISK_AGENT"
  | Node.reporting => "REPORTING_AGENT"
  | Node.assistant => "ASSISTANT_AGENT"

/-- Content of the last message of the transcript, which the Python router
reads as `state["messages"][-1].content`; the transcript is never empty at the
router, so the default is inert. -/
def lastContent (msgs : List Msg) : String :=
  (msgs.getLastD ⟨Role.human, ""⟩).content

/-- Embedding of the `router` node (chatbot_manager.py lines 133-145):
keyword checks on the lowercased current message, first match wins. -/
def routerDecision (last_message : String) : Node :=
  if kwIn "political" last_message then Node.political
  else if kwIn "tariff" last_message then Node.tariff
  else if kwIn "logistics" last_message || kwIn "shipping" last_message then Node.logistics
  else if kwIn "schedule" last_message || kwIn "risk" last_message then Node.scheduler
  else Node.assistant

/-- Embedding of the conditional-edge dictionary after `router`
(chatbot_manager.py lines 162-172): every risk target and the scheduler target
are sent to `SCHEDULER_AGENT` ("Requires baseline data first"); only
`ASSISTANT_AGENT` goes directly. `none` marks targets absent from the edge
dictionary (the router never produces them). -/
def route_after_router : Node → Option Node
  | Node.scheduler => some Node.scheduler
  | Node.political => some Node.scheduler
  | Node.tariff => some Node.scheduler
  | Node.logistics => some Node.scheduler
  | Node.assistant => some Node.assistant
  | _ => none

/-- Backward scan of the transcript for the most recent `HumanMessage`
(chatbot_manager.py lines 175-179). -/
def lastHuman (msgs : List Msg) : Option Msg :=
  msgs.reverse.find? (fun m => m.role == Role.human)

/-- Embedding of `route_after_scheduler` (chatbot_manager.py lines 174-187):
re-applies keyword matching to the most recent user message; note the source
checks the bare "logistic" here, and "report" becomes routable; `none` means
`END`. -/
def route_after_scheduler (msgs : List Msg) : Option Node :=
  match lastHuman msgs with
  | none => none
  | some m =>
    if kwIn "political" m.content then some Node.political
    else if kwIn "tariff" m.content then some Node.tariff
    else if kwIn "logistic" m.content || kwIn "shipping" m.content then some Node.logistics
    else if kwIn "report" m.content then some Node.reporting
    else none

/-- One event row inserted through `log_agent_event` by a stage node. -/
structure AgentEvent where
  agent_name : String
  action : String
  agent_output : String
deriving DecidableEq, Repr

/-- Events logged by each stage node on completion. In chatbot_manager.py only
`run_scheduler` (lines 88-98) and `run_political` (lines 100-110) call
`log_agent_event`, each with a fixed action label and the raw agent output;
`run_tariff`, `run_logistics`, `run_reporting` and `run_assistant`
(lines 112-130) log nothing. -/
def stageEvents (a : Node) (raw : String) : List AgentEvent :=
  match a with
  | Node.scheduler => [⟨"SCHEDULER_AGENT", "Generated schedule analysis", raw⟩]
  | Node.political => [⟨"POLITICAL_RISK_AGENT", "Generated political risk analysis", raw⟩]
  | _ => []

/-- One stage node's turn (`run_scheduler` and friends): when the agent is
available, the stage's reply is tagged `"<AGENT_NAME> > "` and its events are
logged; when the underlying LLM failed to initialize, the node short-circuits
to the fixed placeholder message and logs nothing. `agentOut` abstracts the
react-agent LLM call on the current transcript. -/
def runStageFull (agentOut : Node → List Msg → String) (available : Bool)
    (a : Node) (msgs : List Msg) : Msg × List AgentEvent :=
  if available then
    (⟨Role.ai, agentName a ++ " > " ++ agentOut a msgs⟩, stageEvents a (agentOut a msgs))
  else
    (⟨Role.ai, "Agent not available"⟩, [])

/-- Result of one full pipeline run: nodes executed in order, final transcript,
and the events logged by stage nodes along the way. -/
structure RunResult where
  trace : List Node
  messages : List Msg
  events : List AgentEvent
deriving Repr

/-- Continuation of a pipeline run that entered `SCHEDULER_AGENT`: the
scheduler node runs, then the second conditional edge block (chatbot_manager.py
lines 189-199) routes via `route_after_scheduler`; each risk node is followed
by the fixed edge to `REPORTING_AGENT` (lines 201-203), and reporting goes to
END (line 205). -/
def runFromScheduler (agentOut : Node → List Msg → String) (available : Bool)
    (msgs0 : List Msg) : RunResult :=
  let r1 := runStageFull agentOut available Node.scheduler msgs0
  let msgs1 := msgs0 ++ [r1.1]
  match route_after_scheduler msgs1 with
  | none => ⟨[Node.router, Node.scheduler], msgs1, r1.2⟩
  | some Node.reporting =>
    let r2 := runStageFull agentOut available Node.reporting msgs1
    ⟨[Node.router, Node.scheduler, Node.reporting], msgs1 ++ [r2.1], r1.2 ++ r2.2⟩
  | some r =>
    let r2 := runStageFull agentOut available r msgs1
    let msgs2 := msgs1 ++ [r2.1]
    let r3 := runStageFull agentOut available Node.reporting msgs2
    ⟨[Node.router, Node.scheduler, r, Node.reporting], msgs2 ++ [r3.1],
      r1.2 ++ r2.2 ++ r3.2⟩

/-- Embedding of one compiled-graph invocation (`self.graph.ainvoke(state)`):
START goes to `router`; the first conditional edge block (lines 162-172) sends
assistant traffic straight to `ASSISTANT_AGENT` and everything else through
`SCHEDULER_AGENT`; assistant goes to END (line 206). -/
def runPipeline (agentOut : Node → List Msg → String) (available : Bool)
    (history : List Msg) (input : String) : RunResult :=
  let msgs0 := history ++ [⟨Role.human, input⟩]
  match route_after_router (routerDecision (lastContent msgs0)) with
  | some Node.assistant =>
    let r := runStageFull agentOut available Node.assistant msgs0
    ⟨[Node.router, Node.assistant], msgs0 ++ [r.1], r.2⟩
  | some Node.scheduler => runFromScheduler agentOut available msgs0
  | _ => ⟨[Node.router], msgs0, []⟩

/-- One chat session as held in `self.sessions` (chatbot_manager.py
`initialize_session`): a conversation identifier and the transcript. -/
structure Session where
  conversation_id : String
  messages : List Msg
deriving DecidableEq, Repr

/-- Shape of the dict returned by `process_message`. -/
inductive PMResult
  | success (response : String) (conversation_id : String)
  | error (error_message : String)
deriving DecidableEq, Repr

/-- Fallible part of `process_message` (chatbot_manager.py lines 221-258): the
graph invocation (abstracted as `graphRun`, which may raise), then reading the
final message (`final_state["messages"][-1]` raises IndexError on an empty
list), then the two transcript appends. Returns the response text and the new
transcript. -/
def process_message_body (graphRun : List Msg → Except String (List Msg))
    (session : Session) (message : String) : Except String (String × List Msg) :=
  match graphRun (session.messages ++ [⟨Role.human, message⟩]) with
  | Except.error e => Except.error e
  | Except.ok finalMsgs =>
    match finalMsgs.getLast? with
    | none => Except.error "list index out of range"
    | some last =>
      Except.ok (last.content,
        session.messages ++ [⟨Role.human, message⟩, ⟨Role.ai, last.content⟩])

/-- Embedding of `process_message` (chatbot_manager.py lines 221-266): the
`try` body produces the success dict and the mutated session; any raised
exception is caught and converted to the error dict, leaving the session
transcript untouched. -/
def process_message (graphRun : List Msg → Except String (List Msg))
    (session : Session) (message : String) : PMResult × Session :=
  match process_message_body graphRun session message with
  | Except.ok (resp, msgs) =>
    (PMResult.success resp session.conversation_id, ⟨session.conversation_id, msgs⟩)
  | Except.error e => (PMResult.error e, session)

/-- C2: the first-pass router selects its target by keyword presence in the
lowercased current message, in the precedence order political, tariff,
logistics/shipping, schedule/risk, with ASSISTANT as the fallback; the first
match wins and later keywords are not consulted after a match. -/
theorem C2_router_precedence (msg : String) :
    (kwIn "political" msg = true → routerDecision msg = Node.political) ∧
    (kwIn "political" msg = false → kwIn "tariff" msg = true →
      routerDecision msg = Node.tariff) ∧
    (kwIn "political" msg = false → kwIn "tariff" msg = false →
      (kwIn "logistics" msg = true ∨ kwIn "shipping" msg = true) →
      routerDecision msg = Node.logistics) ∧
    (kwIn "political" msg = false → kwIn "tariff" msg = false →
      kwIn "logistics" msg = false → kwIn "shipping" msg = false →
      (kwIn "schedule" msg = true ∨ kwIn "risk" msg = true) →
      routerDecision msg = Node.scheduler) ∧
    (kwIn "political" msg = false → kwIn "tariff" msg = false →
      kwIn "logistics" msg = false → kwIn "shipping" msg = false →
      kwIn "schedule" msg = false → kwIn "risk" msg = false →
      routerDecision msg = Node.assistant) := by
  refine ⟨?_, ?_, ?_, ?_, ?_⟩
  · intro h1; simp [routerDecision, h1]
  · intro h1 h2; simp [routerDecision, h1, h2]
  · intro h1 h2 h3
    rcases h3 with h3 | h3 <;> simp [routerDecision, h1, h2, h3]
  · intro h1 h2 h3 h4 h5
    rcases h5 with h5 | h5 <;> simp [routerDecision, h1, h2, h3, h4, h5]
  · intro h1 h2 h3 h4 h5 h6; simp [routerDecision, h1, h2, h3, h4, h5, h6]

theorem C2_router_precedence_witness :
    routerDecision "political and tariff news" = Node.political ∧
    routerDecision "tariff and shipping" = Node.tariff ∧
    routerDecision "Shipping delays" = Node.logistics ∧
    routerDecision "risk overview" = Node.scheduler ∧
    routerDecision "hello there" = Node.assistant :=
  ⟨(C2_router_precedence "political and tariff news").1 (by decide),
   (C2_router_precedence "tariff and shipping").2.1 (by decide) (by decide),
   (C2_router_precedence "Shipping delays").2.2.1 (by decide) (by decide)
     (Or.inr (by decide)),
   (C2_router_precedence "risk overview").2.2.2.1 (by decide) (by decide) (by decide)
     (by decide) (Or.inr (by decide)),
   (C2_router_precedence "hello there").2.2.2.2 (by decide) (by decide) (by decide)
     (by decide) (by decide) (by decide)⟩

/-- C3: `calculate_risk_percentage` returns exactly 100 whenever
`days_until_due <= 0`, and for positive `days_until_due` it returns
`abs(days_variance / days_until_due) * 100` rounded to two decimal places. -/
theorem C3_risk_percentage (days_variance days_until_due : ℤ) :
    (days_until_due ≤ 0 → calculate_risk_percentage days_variance days_until_due = 100) ∧
    (0 < days_until_due →
      calculate_risk_percentage days_variance days_until_due =
        round2 (|(days_variance : ℚ) / (days_until_due : ℚ)| * 100)) := by
  constructor
  · intro h; simp [calculate_risk_percentage, h]
  · intro h
    have h' : ¬ days_until_due ≤ 0 := not_le.mpr h
    simp only [calculate_risk_percentage, if_neg h']
    rw [abs_mul]
    norm_num

theorem C3_risk_percentage_witness :
    ((-3 : ℤ) ≤ 0 ∧ calculate_risk_percentage 7 (-3) = 100) ∧
    (0 < (2 : ℤ) ∧ calculate_risk_percentage 1 2 = round2 (|(1 : ℚ) / (2 : ℚ)| * 100)) :=
  ⟨⟨by norm_num, (C3_risk_percentage 7 (-3)).1 (by norm_num)⟩,
   ⟨by norm_num, (C3_risk_percentage 1 2).2 (by norm_num)⟩⟩

/-- C4: `categorize_risk` maps every nonnegative percentage to exactly one of
the three categories with closed-lower thresholds at 5 and 15: below 5 is Low
Risk with 1 point, in [5, 15) is Medium Risk with 3 points, at or above 15 is
High Risk with 5 points; in particular 5 is Medium and 15 is High. -/
theorem C4_categorize_partition (p : ℚ) (_hp : 0 ≤ p) :
    (categorize_risk p = ⟨"Low Risk", 1⟩ ↔ p < 5) ∧
    (categorize_risk p = ⟨"Medium Risk", 3⟩ ↔ 5 ≤ p ∧ p < 15) ∧
    (categorize_risk p = ⟨"High Risk", 5⟩ ↔ 15 ≤ p) ∧
    (categorize_risk p = ⟨"Low Risk", 1⟩ ∨ categorize_risk p = ⟨"Medium Risk", 3⟩ ∨
      categorize_risk p = ⟨"High Risk", 5⟩) ∧
    categorize_risk 5 = ⟨"Medium Risk", 3⟩ ∧ categorize_risk 15 = ⟨"High Risk", 5⟩ := by
  have hlow : ∀ q : ℚ, q < 5 → categorize_risk q = ⟨"Low Risk", 1⟩ := by
    intro q h; simp [categorize_risk, h]
  have hmed : ∀ q : ℚ, ¬q < 5 → q < 15 → categorize_risk q = ⟨"Medium Risk", 3⟩ := by
    intro q h1 h2; simp [categorize_risk, h1, h2]
  have hhigh : ∀ q : ℚ, ¬q < 5 → ¬q < 15 → categorize_risk q = ⟨"High Risk", 5⟩ := by
    intro q h1 h2; simp [categorize_risk, h1, h2]
  have hb : categorize_risk 5 = (⟨"Medium Risk", 3⟩ : RiskCategory) :=
    hmed 5 (by norm_num) (by norm_num)
  have hb' : categorize_risk 15 = (⟨"High Risk", 5⟩ : RiskCategory) :=
    hhigh 15 (by norm_num) (by norm_num)
  by_cases h1 : p < 5
  · rw [hlow p h1]
    refine ⟨iff_of_true rfl h1, ?_, ?_, Or.inl rfl, hb, hb'⟩
    · exact ⟨fun heq => absurd heq (by decide), fun h => absurd h1 (not_lt.mpr h.1)⟩
    · exact ⟨fun heq => absurd heq (by decide),
        fun h15 => absurd h1 (not_lt.mpr (by linarith))⟩
  · by_cases h2 : p < 15
    · rw [hmed p h1 h2]
      refine ⟨?_, iff_of_true rfl ⟨not_lt.mp h1, h2⟩, ?_, Or.inr (Or.inl rfl), hb, hb'⟩
      · exact ⟨fun heq => absurd heq (by decide), fun h5 => absurd h5 h1⟩
      · exact ⟨fun heq => absurd heq (by decide), fun h15 => absurd h2 (not_lt.mpr h15)⟩
    · rw [hhigh p h1 h2]
      refine ⟨?_, ?_, iff_of_true rfl (not_lt.mp h2), Or.inr (Or.inr rfl), hb, hb'⟩
      · exact ⟨fun heq => absurd heq (by decide), fun h5 => absurd h5 h1⟩
      · exact ⟨fun heq => absurd heq (by decide), fun h => absurd h.2 h2⟩

theorem C4_categorize_partition_witness :
    (0 : ℚ) ≤ 7 ∧ (categorize_risk 7 = ⟨"Medium Risk", 3⟩ ↔ 5 ≤ (7 : ℚ) ∧ (7 : ℚ) < 15) :=
  ⟨by norm_num, (C4_categorize_partition 7 (by norm_num)).2.1⟩

/-- C7: under the fixed bound of 3, the retry wrappers try the external call at
most 3 times with one 500 ms sleep between consecutive attempts, return the
first successful result immediately, and surface the third attempt's error when
all attempts fail; insert and RPC reads share the identical discipline. -/
theorem C7_retry_discipline (E A : Type) (attempt : ℕ → Except E A) :
    insert_table_with_retry attempt 3 = execute_rpc_with_retry attempt 3 ∧
    insert_table_with_retry attempt 3 =
      (match attempt 0 with
       | Except.ok a => some ⟨Except.ok a, 1, []⟩
       | Except.error _ =>
         match attempt 1 with
         | Except.ok a => some ⟨Except.ok a, 2, [500]⟩
         | Except.error _ =>
           match attempt 2 with
           | Except.ok a => some ⟨Except.ok a, 3, [500, 500]⟩
           | Except.error e => some ⟨Except.error e, 3, [500, 500]⟩) ∧
    (∀ o : RetryOutcome E A, insert_table_with_retry attempt 3 = some o →
      o.attemptsMade ≤ 3 ∧ o.delaysMs = List.replicate (o.attemptsMade - 1) 500) := by
  refine ⟨rfl, ?_, ?_⟩
  · cases h0 : attempt 0 <;> cases h1 : attempt 1 <;> cases h2 : attempt 2 <;>
      simp [insert_table_with_retry, retryLoop, h0, h1, h2]
  · intro o ho
    cases h0 : attempt 0 <;> cases h1 : attempt 1 <;> cases h2 : attempt 2 <;>
      simp [insert_table_with_retry, retryLoop, h0, h1, h2] at ho <;>
      simp [← ho]

theorem C7_retry_discipline_witness :
    insert_table_with_retry (fun _ => (Except.error "down" : Except String Unit)) 3 =
      some (⟨Except.error "down", 3, [500, 500]⟩ : RetryOutcome String Unit) ∧
    ((3 : ℕ) ≤ 3 ∧ ([500, 500] : List ℕ) = List.replicate (3 - 1) 500) := by
  have h := (C7_retry_discipline String Unit (fun _ => Except.error "down")).2.1
  have heq : insert_table_with_retry (fun _ => (Except.error "down" : Except String Unit)) 3 =
      some (⟨Except.error "down", 3, [500, 500]⟩ : RetryOutcome String Unit) := h.trans rfl
  exact ⟨heq, (C7_retry_discipline String Unit (fun _ => Except.error "down")).2.2 _ heq⟩

/-- C8: each of the three large text fields persisted by `log_agent_thinking`
is truncated to its first 50000 characters followed by the in-band marker when
it exceeds 50000 characters, and is persisted unchanged at 50000 characters or
fewer. -/
theorem C8_truncation (f : ThinkingLogFields) :
    (log_agent_thinking_persisted f).thought_content = truncate_text f.thought_content ∧
    (log_agent_thinking_persisted f).thinking_stage_output =
      truncate_text f.thinking_stage_output ∧
    (log_agent_thinking_persisted f).agent_output = truncate_text f.agent_output ∧
    (∀ s : List Char, max_text_length < s.length →
      truncate_text s = s.take max_text_length ++ truncation_marker) ∧
    (∀ s : List Char, s.length ≤ max_text_length → truncate_text s = s) := by
  refine ⟨rfl, rfl, rfl, ?_, ?_⟩
  · intro s h
    have hne : s ≠ [] := by
      intro hs
      rw [hs] at h
      simp [max_text_length] at h
    unfold truncate_text
    rw [if_pos ⟨hne, h⟩]
  · intro s h
    have hcond : ¬(s ≠ [] ∧ max_text_length < s.length) := by
      rintro ⟨-, hlt⟩
      exact absurd h (not_le.mpr hlt)
    unfold truncate_text
    rw [if_neg hcond]

theorem C8_truncation_witness :
    max_text_length < (List.replicate 60000 'a').length ∧
    truncate_text (List.replicate 60000 'a') =
      List.replicate 50000 'a' ++ truncation_marker ∧
    (List.replicate 50000 'a').length = 50000 := by
  have hlen : (List.replicate 60000 'a').length = 60000 := List.length_replicate _ _
  have hgt : max_text_length < (List.replicate 60000 'a').length := by
    rw [hlen]
    norm_num [max_text_length]
  refine ⟨hgt, ?_, List.length_replicate _ _⟩
  have h := (C8_truncation ⟨[], [], []⟩).2.2.2.1 (List.replicate 60000 'a') hgt
  have hmin : min max_text_length 60000 = 50000 := by
    norm_num [max_text_length]
  rw [h, List.take_replicate, hmin]

/-- C9: a successful turn appends exactly the user message followed by the
assistant's final message to the session transcript, in that order and nothing
else; a failed turn leaves the session (and so its transcript) unchanged. -/
theorem C9_transcript_append (graphRun : List Msg → Except String (List Msg))
    (session : Session) (message : String) :
    (∀ r cid, (process_message graphRun session message).1 = PMResult.success r cid →
      (process_message graphRun session message).2.messages =
        session.messages ++ [⟨Role.human, message⟩, ⟨Role.ai, r⟩]) ∧
    (∀ e, (process_message graphRun session message).1 = PMResult.error e →
      (process_message graphRun session message).2 = session) := by
  cases hg : graphRun (session.messages ++ [⟨Role.human, message⟩]) with
  | error e =>
    constructor
    · intro r cid hr
      simp [process_message, process_message_body, hg] at hr
    · intro e' he
      simp [process_message, process_message_body, hg]
  | ok finalMsgs =>
    cases hl : finalMsgs.getLast? with
    | none =>
      constructor
      · intro r cid hr
        simp [process_message, process_message_body, hg, hl] at hr
      · intro e he
        simp [process_message, process_message_body, hg, hl]
    | some last =>
      constructor
      · intro r cid hr
        simp [process_message, process_message_body, hg, hl] at hr ⊢
        rw [hr.1]
      · intro e he
        simp [process_message, process_message_body, hg, hl] at he

theorem C9_transcript_append_witness :
    (process_message (fun msgs => Except.ok msgs) ⟨"conv", []⟩ "hi").2.messages =
      ([] : List Msg) ++ [⟨Role.human, "hi"⟩, ⟨Role.ai, "hi"⟩] :=
  (C9_transcript_append (fun msgs => Except.ok msgs) ⟨"conv", []⟩ "hi").1 "hi" "conv" rfl

/-- C10: `process_message` is total at its interface: for every graph backend,
session and message it returns either a success value carrying the response and
the session's conversation identifier, or an error value carrying the error
text; every raised error of the turn body is caught and converted to the
error-form result with the session left unchanged. -/
theorem C10_process_message_total (graphRun : List Msg → Except String (List Msg))
    (session : Session) (message : String) :
    ((∃ resp, (process_message graphRun session message).1 =
        PMResult.success resp session.conversation_id) ∨
      (∃ e, (process_message graphRun session message).1 = PMResult.error e)) ∧
    (∀ e, process_message_body graphRun session message = Except.error e →
      process_message graphRun session message = (PMResult.error e, session)) ∧
    (∀ r msgs, process_message_body graphRun session message = Except.ok (r, msgs) →
      process_message graphRun session message =
        (PMResult.success r session.conversation_id, ⟨session.conversation_id, msgs⟩)) := by
  refine ⟨?_, ?_, ?_⟩
  · unfold process_message
    cases hb : process_message_body graphRun session message with
    | error e => exact Or.inr ⟨e, rfl⟩
    | ok p => exact Or.inl ⟨p.1, rfl⟩
  · intro e he
    unfold process_message
    rw [he]
  · intro r msgs hok
    unfold process_message
    rw [hok]

theorem C10_process_message_total_witness :
    process_message (fun _ => Except.error "boom") ⟨"conv", []⟩ "hi" =
      (PMResult.error "boom", ⟨"conv", []⟩) :=
  (C10_process_message_total (fun _ => Except.error "boom") ⟨"conv", []⟩ "hi").2.1
    "boom" rfl

theorem lastContent_concat (l : List Msg) (m : Msg) : lastContent (l ++ [m]) = m.content := by
  simp [lastContent, List.getLastD_concat]

theorem runStageFull_fst_role (agentOut : Node → List Msg → String) (available : Bool)
    (a : Node) (msgs : List Msg) :
    (runStageFull agentOut available a msgs).1.role = Role.ai := by
  unfold runStageFull
  split <;> rfl

theorem lastHuman_concat_of_ai (l : List Msg) (m : Msg) (h : m.role = Role.ai) :
    lastHuman (l ++ [m]) = lastHuman l := by
  simp [lastHuman, List.reverse_append, h]

theorem lastHuman_concat_human (l : List Msg) (s : String) :
    lastHuman (l ++ [⟨Role.human, s⟩]) = some ⟨Role.human, s⟩ := by
  simp [lastHuman, List.reverse_append]

theorem routerDecision_cases (s : String) :
    routerDecision s = Node.political ∨ routerDecision s = Node.tariff ∨
    routerDecision s = Node.logistics ∨ routerDecision s = Node.scheduler ∨
    routerDecision s = Node.assistant := by
  unfold routerDecision
  split_ifs <;> tauto

theorem route_after_scheduler_range (msgs : List Msg) (r : Node)
    (h : route_after_scheduler msgs = some r) :
    r = Node.political ∨ r = Node.tariff ∨ r = Node.logistics ∨ r = Node.reporting := by
  unfold route_after_scheduler at h
  cases hl : lastHuman msgs with
  | none => rw [hl] at h; cases h
  | some m =>
    rw [hl] at h
    dsimp only at h
    split_ifs at h <;> simp_all

theorem runPipeline_assistant_trace (agentOut : Node → List Msg → String) (available : Bool)
    (history : List Msg) (msg : String)
    (h : routerDecision (lastContent (history ++ [⟨Role.human, msg⟩])) = Node.assistant) :
    (runPipeline agentOut available history msg).trace = [Node.router, Node.assistant] := by
  simp only [runPipeline]
  rw [h]
  rfl

theorem runPipeline_scheduler_eq (agentOut : Node → List Msg → String) (available : Bool)
    (history : List Msg) (msg : String) (t : Node)
    (h : routerDecision (lastContent (history ++ [⟨Role.human, msg⟩])) = t)
    (ht : route_after_router t = some Node.scheduler) :
    runPipeline agentOut available history msg =
      runFromScheduler agentOut available (history ++ [⟨Role.human, msg⟩]) := by
  simp only [runPipeline]
  rw [h, ht]

theorem runFromScheduler_trace_none (agentOut : Node → List Msg → String) (available : Bool)
    (msgs0 : List Msg)
    (h : route_after_scheduler
        (msgs0 ++ [(runStageFull agentOut available Node.scheduler msgs0).1]) = none) :
    (runFromScheduler agentOut available msgs0).trace = [Node.router, Node.scheduler] := by
  simp only [runFromScheduler]
  rw [h]

theorem runFromScheduler_trace_reporting (agentOut : Node → List Msg → String)
    (available : Bool) (msgs0 : List Msg)
    (h : route_after_scheduler
        (msgs0 ++ [(runStageFull agentOut available Node.scheduler msgs0).1]) =
      some Node.reporting) :
    (runFromScheduler agentOut available msgs0).trace =
      [Node.router, Node.scheduler, Node.reporting] := by
  simp only [runFromScheduler]
  rw [h]

theorem runFromScheduler_trace_risk (agentOut : Node → List Msg → String) (available : Bool)
    (msgs0 : List Msg) (r : Node)
    (h : route_after_scheduler
        (msgs0 ++ [(runStageFull agentOut available Node.scheduler msgs0).1]) = some r)
    (hr : r = Node.political ∨ r = Node.tariff ∨ r = Node.logistics) :
    (runFromScheduler agentOut available msgs0).trace =
      [Node.router, Node.scheduler, r, Node.reporting] := by
  rcases hr with rfl | rfl | rfl <;>
    · simp only [runFromScheduler]
      rw [h]

theorem runPipeline_trace_cases (agentOut : Node → List Msg → String) (available : Bool)
    (history : List Msg) (msg : String) :
    (runPipeline agentOut available history msg).trace = [Node.router, Node.assistant] ∨
    (runPipeline agentOut available history msg).trace = [Node.router, Node.scheduler] ∨
    (runPipeline agentOut available history msg).trace =
      [Node.router, Node.scheduler, Node.reporting] ∨
    ∃ r, (r = Node.political ∨ r = Node.tariff ∨ r = Node.logistics) ∧
      (runPipeline agentOut available history msg).trace =
        [Node.router, Node.scheduler, r, Node.reporting] := by
  have hsch : ∀ t : Node, route_after_router t = some Node.scheduler →
      routerDecision (lastContent (history ++ [⟨Role.human, msg⟩])) = t →
      (runPipeline agentOut available history msg).trace = [Node.router, Node.scheduler] ∨
      (runPipeline agentOut available history msg).trace =
        [Node.router, Node.scheduler, Node.reporting] ∨
      ∃ r, (r = Node.political ∨ r = Node.tariff ∨ r = Node.logistics) ∧
        (runPipeline agentOut available history msg).trace =
          [Node.router, Node.scheduler, r, Node.reporting] := by
    intro t ht h
    rw [runPipeline_scheduler_eq agentOut available history msg t h ht]
    cases hs : route_after_scheduler
        ((history ++ [⟨Role.human, msg⟩]) ++
          [(runStageFull agentOut available Node.scheduler
              (history ++ [⟨Role.human, msg⟩])).1]) with
    | none => exact Or.inl (runFromScheduler_trace_none agentOut available _ hs)
    | some r =>
      rcases route_after_scheduler_range _ _ hs with rfl | rfl | rfl | rfl
      · exact Or.inr (Or.inr ⟨Node.political, Or.inl rfl,
          runFromScheduler_trace_risk agentOut available _ _ hs (Or.inl rfl)⟩)
      · exact Or.inr (Or.inr ⟨Node.tariff, Or.inr (Or.inl rfl),
          runFromScheduler_trace_risk agentOut available _ _ hs (Or.inr (Or.inl rfl))⟩)
      · exact Or.inr (Or.inr ⟨Node.logistics, Or.inr (Or.inr rfl),
          runFromScheduler_trace_risk agentOut available _ _ hs (Or.inr (Or.inr rfl))⟩)
      · exact Or.inr (Or.inl (runFromScheduler_trace_reporting agentOut available _ hs))
  rcases routerDecision_cases (lastContent (history ++ [⟨Role.human, msg⟩])) with
    h | h | h | h | h
  · exact Or.inr (hsch Node.political rfl h)
  · exact Or.inr (hsch Node.tariff rfl h)
  · exact Or.inr (hsch Node.logistics rfl h)
  · exact Or.inr (hsch Node.scheduler rfl h)
  · exact Or.inl (runPipeline_assistant_trace agentOut available history msg h)

/-- C1: every message containing "political" (lowercased) drives the pipeline
through SCHEDULER first, then the post-scheduler pass to POLITICAL, which
always continues to REPORTING; moreover no risk stage (POLITICAL, TARIFF,
LOGISTICS) ever appears in a run's trace except in the position immediately
after a SCHEDULER turn of the same run. -/
theorem C1_political_requires_scheduler (agentOut : Node → List Msg → String)
    (available : Bool) (history : List Msg) :
    (∀ input : String, kwIn "political" input = true →
      (runPipeline agentOut available history input).trace =
        [Node.router, Node.scheduler, Node.political, Node.reporting]) ∧
    (∀ msg : String, ∀ r : Node,
      (r = Node.political ∨ r = Node.tariff ∨ r = Node.logistics) →
      r ∈ (runPipeline agentOut available history msg).trace →
      (runPipeline agentOut available history msg).trace =
        [Node.router, Node.scheduler, r, Node.reporting]) := by
  constructor
  · intro input hpol
    have hlc : lastContent (history ++ [⟨Role.human, input⟩]) = input :=
      lastContent_concat _ _
    have hd : routerDecision (lastContent (history ++ [⟨Role.human, input⟩])) =
        Node.political := by
      rw [hlc]
      simp [routerDecision, hpol]
    rw [runPipeline_scheduler_eq agentOut available history input Node.political hd rfl]
    have hrole := runStageFull_fst_role agentOut available Node.scheduler
      (history ++ [⟨Role.human, input⟩])
    have hlh : lastHuman ((history ++ [⟨Role.human, input⟩]) ++
        [(runStageFull agentOut available Node.scheduler
            (history ++ [⟨Role.human, input⟩])).1]) = some ⟨Role.human, input⟩ := by
      rw [lastHuman_concat_of_ai _ _ hrole, lastHuman_concat_human]
    have hras : route_after_scheduler ((history ++ [⟨Role.human, input⟩]) ++
        [(runStageFull agentOut available Node.scheduler
            (history ++ [⟨Role.human, input⟩])).1]) = some Node.political := by
      unfold route_after_scheduler
      rw [hlh]
      dsimp only
      rw [if_pos hpol]
    exact runFromScheduler_trace_risk agentOut available _ _ hras (Or.inl rfl)
  · intro msg r hr hmem
    rcases runPipeline_trace_cases agentOut available history msg with h | h | h | ⟨r', hr', h⟩
    · rw [h] at hmem
      rcases hr with rfl | rfl | rfl <;> simp at hmem
    · rw [h] at hmem
      rcases hr with rfl | rfl | rfl <;> simp at hmem
    · rw [h] at hmem
      rcases hr with rfl | rfl | rfl <;> simp at hmem
    · rw [h] at hmem
      rcases hr with rfl | rfl | rfl <;> rcases hr' with rfl | rfl | rfl <;> simp_all

theorem C1_political_requires_scheduler_witness :
    kwIn "political" "what is the political risk" = true ∧
    (runPipeline (fun _ _ => "analysis") true [] "what is the political risk").trace =
      [Node.router, Node.scheduler, Node.political, Node.reporting] :=
  ⟨by decide,
   (C1_political_requires_scheduler (fun _ _ => "analysis") true []).1
     "what is the political risk" (by decide)⟩

/-- C6: a message containing "report" but none of the first-pass keywords is
routed to ASSISTANT on the first pass and its run never reaches REPORTING; the
first-pass router can never select REPORTING, and any run whose trace contains
REPORTING also contains a SCHEDULER turn (so REPORTING is reachable only
through the post-scheduler pass). -/
theorem C6_report_needs_second_pass (agentOut : Node → List Msg → String)
    (available : Bool) (history : List Msg) (msg : String)
    (_hrep : kwIn "report" msg = true)
    (hpol : kwIn "political" msg = false) (htar : kwIn "tariff" msg = false)
    (hlog : kwIn "logistics" msg = false) (hshp : kwIn "shipping" msg = false)
    (hsch : kwIn "schedule" msg = false) (hrsk : kwIn "risk" msg = false) :
    routerDecision msg = Node.assistant ∧
    (runPipeline agentOut available history msg).trace = [Node.router, Node.assistant] ∧
    Node.reporting ∉ (runPipeline agentOut available history msg).trace ∧
    (∀ s : String, routerDecision s ≠ Node.reporting) ∧
    (∀ m : String, Node.reporting ∈ (runPipeline agentOut available history m).trace →
      Node.scheduler ∈ (runPipeline agentOut available history m).trace) := by
  have hd : routerDecision msg = Node.assistant := by
    simp [routerDecision, hpol, htar, hlog, hshp, hsch, hrsk]
  have hlc : lastContent (history ++ [⟨Role.human, msg⟩]) = msg := lastContent_concat _ _
  have htrace := runPipeline_assistant_trace agentOut available history msg
    (by rw [hlc]; exact hd)
  refine ⟨hd, htrace, ?_, ?_, ?_⟩
  · rw [htrace]
    simp
  · intro s
    rcases routerDecision_cases s with h | h | h | h | h <;> simp [h]
  · intro m hmem
    rcases runPipeline_trace_cases agentOut available history m with h | h | h | ⟨r', hr', h⟩ <;>
      rw [h] at hmem ⊢ <;> simp_all

theorem C6_report_needs_second_pass_witness :
    routerDecision "give me a report" = Node.assistant ∧
    (runPipeline (fun _ _ => "reply") true [] "give me a report").trace =
      [Node.router, Node.assistant] :=
  ⟨(C6_report_needs_second_pass (fun _ _ => "reply") true [] "give me a report"
      (by decide) (by decide) (by decide) (by decide) (by decide) (by decide)
      (by decide)).1,
   (C6_report_needs_second_pass (fun _ _ => "reply") true [] "give me a report"
      (by decide) (by decide) (by decide) (by decide) (by decide) (by decide)
      (by decide)).2.1⟩

/-- C5 counterexample: on the input "tariff exposure" the TARIFF stage executes
and the run ends at REPORTING, yet the run's event log contains no record for
the tariff stage and none for the reporting stage — refuting the claim that
every stage logs an event on completion. -/
theorem C5_counterexample :
    Node.tariff ∈ (runPipeline (fun _ _ => "analysis") true [] "tariff exposure").trace ∧
    (runPipeline (fun _ _ => "analysis") true [] "tariff exposure").messages.getLastD
        ⟨Role.human, ""⟩ = ⟨Role.ai, "REPORTING_AGENT > analysis"⟩ ∧
    ∀ e ∈ (runPipeline (fun _ _ => "analysis") true [] "tariff exposure").events,
      e.agent_name ≠ "TARIFF_RISK_AGENT" ∧ e.agent_name ≠ "REPORTING_AGENT" := by
  decide

/-- C5 (amended): every stage's output message is tagged with the stage's name
as a prefixed label, but only the SCHEDULER and POLITICAL stages log an event
record (with their fixed action labels and the full raw output); the TARIFF,
LOGISTICS, REPORTING and ASSISTANT stages log no event. -/
theorem C5_amended_stage_logging (agentOut : Node → List Msg → String)
    (a : Node) (msgs : List Msg) :
    (runStageFull agentOut true a msgs).1.content =
      agentName a ++ " > " ++ agentOut a msgs ∧
    (a = Node.scheduler →
      (runStageFull agentOut true a msgs).2 =
        [⟨"SCHEDULER_AGENT", "Generated schedule analysis", agentOut a msgs⟩]) ∧
    (a = Node.political →
      (runStageFull agentOut true a msgs).2 =
        [⟨"POLITICAL_RISK_AGENT", "Generated political risk analysis", agentOut a msgs⟩]) ∧
    (a ≠ Node.scheduler → a ≠ Node.political →
      (runStageFull agentOut true a msgs).2 = []) := by
  cases a <;> simp [runStageFull, stageEvents, agentName]

theorem C5_amended_stage_logging_witness :
    (runStageFull (fun _ _ => "out") true Node.tariff []).1.content =
      "TARIFF_RISK_AGENT > out" ∧
    (runStageFull (fun _ _ => "out") true Node.tariff []).2 = [] :=
  ⟨((C5_amended_stage_logging (fun _ _ => "out") Node.tariff []).1).trans (by decide),
   (C5_amended_stage_logging (fun _ _ => "out") Node.tariff []).2.2.2
     (by decide) (by decide)⟩
